import Mathlib

/-!
Verification of the Mailgun email backend (`anymail/backends/mailgun.py`).

The development shallowly embeds the payload-construction and
response-parsing logic of the backend: the payload's field dictionary is
an association list with dictionary semantics (inserting an existing key
replaces its value), fallible operations return `Except`, and Python
string operations (`split`, `startswith`) are translated to executable
Lean functions over the character lists of strings.
-/

/-! ## Basic characters and strings -/

/-- The double-quote character. -/
def quoteChar : Char := Char.ofNat 34

/-- The backslash character. -/
def backslashChar : Char := Char.ofNat 92

/-- The one-character string holding a double quote. -/
def quoteStr : String := ⟨[quoteChar]⟩

/-- Translation of Python `s.split(c)` for a one-character separator,
working on the character list: splitting an empty string yields one empty
part, and each occurrence of the separator starts a new part. -/
def splitCharAux (c : Char) : List Char → List (List Char)
  | [] => [[]]
  | x :: xs =>
    let r := splitCharAux c xs
    if x = c then [] :: r
    else
      match r with
      | [] => [[x]]
      | h :: t => (x :: h) :: t

/-- Python `s.split(c)` (single-character separator). -/
def pySplit (s : String) (c : Char) : List String :=
  (splitCharAux c s.data).map String.mk

/-- Python `s.startswith(p)`. -/
def strStartsWith (s p : String) : Bool := p.data.isPrefixOf s.data

/-! ## Dictionary operations

Python dictionaries are modelled as association lists with unique keys;
`dinsert` is `d[k] = v` (replace the old binding if present, append
otherwise), `updateData` is `d.update(e)`, and `dpopKey` removes a key as
`d.pop(k)` does. -/

/-- Python `d[k] = v` on a dictionary modelled as an association list. -/
def dinsert {V : Type} (k : String) (v : V) (d : List (String × V)) : List (String × V) :=
  d.filter (fun kv => kv.1 != k) ++ [(k, v)]

/-- Python `d.update(e)`: insert every binding of `e` into `d` in order. -/
def updateData {V : Type} (d e : List (String × V)) : List (String × V) :=
  e.foldl (fun acc kv => dinsert kv.1 kv.2 acc) d

/-- Key removal, the mutation part of Python `d.pop(k, default)`. -/
def dpopKey {V : Type} (k : String) (d : List (String × V)) : List (String × V) :=
  d.filter (fun kv => kv.1 != k)

/-! ## JSON values and serialization -/

/-- A JSON value, as produced by deserializing a response body or passed
as a metadata value. An `obj` models a Python dict: its keys are unique. -/
inductive Json where
  | null : Json
  | bool (b : Bool) : Json
  | num (n : Int) : Json
  | str (s : String) : Json
  | arr (xs : List Json) : Json
  | obj (kvs : List (String × Json)) : Json

/-- Decimal digits of a natural number, most significant first; the fuel
argument makes the recursion structural (fuel `n + 1` always suffices). -/
def natDigitsAux : Nat → Nat → List Char
  | 0, _ => []
  | fuel + 1, n =>
    if n < 10 then [Nat.digitChar n]
    else natDigitsAux fuel (n / 10) ++ [Nat.digitChar (n % 10)]

/-- Decimal digits of a natural number. -/
def natDigits (n : Nat) : List Char := natDigitsAux (n + 1) n

/-- Decimal representation of an integer. -/
def intRepr : Int → String
  | .ofNat n => ⟨natDigits n⟩
  | .negSucc n => "-" ++ (⟨natDigits (n + 1)⟩ : String)

/-- JSON string escaping for one character. -/
def escChar (c : Char) : List Char :=
  if c = quoteChar then [backslashChar, quoteChar]
  else if c = backslashChar then [backslashChar, backslashChar]
  else [c]

/-- JSON string escaping. -/
def jsonEscape (s : String) : String := ⟨(s.data.map escChar).flatten⟩

mutual

/-- Modelled from the spec: the JSON text of a value, as produced by the
base payload's `serialize_json` helper (which is not part of this source
file); compact serialization, a string as a quoted literal, numbers and
constants as their literal text. -/
def Json.dumps : Json → String
  | .null => "null"
  | .bool true => "true"
  | .bool false => "false"
  | .num n => intRepr n
  | .str s => quoteStr ++ jsonEscape s ++ quoteStr
  | .arr xs => "[" ++ dumpsElems xs ++ "]"
  | .obj kvs => "\x7b" ++ dumpsFields kvs ++ "\x7d"

/-- Comma-separated JSON texts of array elements. -/
def dumpsElems : List Json → String
  | [] => ""
  | [j] => Json.dumps j
  | j :: rest => Json.dumps j ++ "," ++ dumpsElems rest

/-- Comma-separated `"key":value` JSON texts of object fields. -/
def dumpsFields : List (String × Json) → String
  | [] => ""
  | [(k, v)] => quoteStr ++ jsonEscape k ++ quoteStr ++ ":" ++ Json.dumps v
  | (k, v) :: rest =>
    quoteStr ++ jsonEscape k ++ quoteStr ++ ":" ++ Json.dumps v ++ "," ++ dumpsFields rest

end

/-- A Python value offered as a metadata value: either a JSON-serializable
value, or an object (tagged by a description) that `serialize_json`
cannot represent as JSON. -/
inductive PyValue where
  | json (j : Json) : PyValue
  | notSerializable (tag : String) : PyValue

/-- Whether `serialize_json` succeeds on the value. -/
def PyValue.serializable : PyValue → Bool
  | .json _ => true
  | .notSerializable _ => false

/-! ## Errors and supporting data types -/

/-- The classified errors the backend can raise, plus the one unclassified
Python exception reachable in `parse_recipient_status`.
`configError` is the `AnymailError` raised by `get_api_endpoint` when the
sender domain is unknown (its message instructs the caller to provide a
valid from_email or an esp_extra sender_domain override);
`apiFormatError` is the `AnymailRequestsAPIError` with message
"Invalid Mailgun API response format"; `apiUnrecognizedMessage` is the
`AnymailRequestsAPIError` for an unrecognized Mailgun message text;
`serializationError` is the `AnymailSerializationError` raised by
`serialize_json`; `attributeError` is an uncaught Python
`AttributeError` (calling `startswith` on a non-string). -/
inductive AnymailError where
  | configError : AnymailError
  | apiFormatError : AnymailError
  | apiUnrecognizedMessage (msg : String) : AnymailError
  | serializationError : AnymailError
  | attributeError : AnymailError
deriving DecidableEq

/-- An address object of the message model, with its display name (empty
when absent) and its plain email string. -/
structure EmailAddress where
  display_name : String
  email : String
deriving DecidableEq

/-- Modelled from the spec: `str(email)` for an address object of the
message model (not part of this source file) renders
`Display Name <local@domain>`, or the bare email when there is no
display name. -/
def EmailAddress.pyStr (a : EmailAddress) : String :=
  if a.display_name = "" then a.email
  else a.display_name ++ " <" ++ a.email ++ ">"

/-- A value stored in the payload's field dictionary: a string, or a list
of strings (recipient lists, tags). -/
inductive Value where
  | str (s : String) : Value
  | list (xs : List String) : Value
deriving DecidableEq

/-- Python `str()` of a stored field value (used by `"%s" % value`
formatting). -/
def Value.pyStr : Value → String
  | .str s => s
  | .list xs =>
    "[" ++ String.intercalate ", " (xs.map (fun s => "\x27" ++ s ++ "\x27")) ++ "]"

/-- `AnymailRecipientStatus`: the per-recipient result, holding the
message id exactly as taken from the parsed response and the status
string. -/
structure AnymailRecipientStatus where
  message_id : Json
  status : String

/-! ## The Mailgun payload -/

/-- The state of a `MailgunPayload`: the field dictionary `data`, the
sender domain (`None` until inferred or overridden), the `all_recipients`
side list, and the recorded unsupported-feature notices. Attachment file
parts are not modelled (no claim concerns them). -/
structure MailgunPayload where
  data : List (String × Value)
  sender_domain : Option Value
  all_recipients : List EmailAddress
  unsupported_features : List String

/-- A freshly constructed `MailgunPayload`: `__init__` sets
`sender_domain = None` and `all_recipients = []`, and `init_payload`
sets `data = {}`. -/
def init_payload : MailgunPayload :=
  { data := [], sender_domain := none, all_recipients := [], unsupported_features := [] }

/-- Modelled from the spec: the base payload's `unsupported_feature`
(not part of this source file) records a notice for the feature and does
not raise. -/
def MailgunPayload.unsupported_feature (p : MailgunPayload) (feature : String) : MailgunPayload :=
  { p with unsupported_features := p.unsupported_features ++ [feature] }

/-- `set_from_email`: store `str(email)` under `"from"`; if the sender
domain is still unset, try `_, domain = email.email.split("@")` and keep
the domain; a `ValueError` (the split does not yield exactly two parts)
is silently ignored. -/
def MailgunPayload.set_from_email (p : MailgunPayload) (email : EmailAddress) : MailgunPayload :=
  let p1 := { p with data := dinsert "from" (.str email.pyStr) p.data }
  match p1.sender_domain with
  | some _ => p1
  | none =>
    match pySplit email.email '@' with
    | [_, domain] => { p1 with sender_domain := some (.str domain) }
    | _ => p1

/-- `get_api_endpoint`: raise the configuration `AnymailError` when the
sender domain is unknown, else return `"%s/messages" % sender_domain`. -/
def MailgunPayload.get_api_endpoint (p : MailgunPayload) : Except AnymailError String :=
  match p.sender_domain with
  | none => .error .configError
  | some d => .ok (d.pyStr ++ "/messages")

/-- `set_recipients`: when the list is non-empty, store the stringified
list under the recipient-type field and append the addresses to
`all_recipients`. (The callers only pass `"to"`, `"cc"` or `"bcc"`, as
the source's `assert` records.) -/
def MailgunPayload.set_recipients (p : MailgunPayload) (recipient_type : String)
    (emails : List EmailAddress) : MailgunPayload :=
  if emails.isEmpty then p
  else
    { p with
      data := dinsert recipient_type (.list (emails.map EmailAddress.pyStr)) p.data,
      all_recipients := p.all_recipients ++ emails }

/-- `set_html_body`: when an html body was already stored, record the
"multiple html parts" unsupported-feature notice; then store the new body
under `"html"`. -/
def MailgunPayload.set_html_body (p : MailgunPayload) (body : String) : MailgunPayload :=
  let p1 := if (p.data.lookup "html").isSome then p.unsupported_feature "multiple html parts" else p
  { p1 with data := dinsert "html" (.str body) p1.data }

/-- `set_esp_extra`: `self.data.update(extra)`, then
`self.sender_domain = self.data.pop("sender_domain", self.sender_domain)`
so an esp_extra `sender_domain` overrides the domain and is never sent as
a literal field. -/
def MailgunPayload.set_esp_extra (p : MailgunPayload) (extra : List (String × Value)) :
    MailgunPayload :=
  let d := updateData p.data extra
  match d.lookup "sender_domain" with
  | some v => { p with data := dpopKey "sender_domain" d, sender_domain := some v }
  | none => { p with data := d }

/-- Modelled from the spec: the base payload's `serialize_json` (not part
of this source file) returns the JSON text of a serializable value and
raises an `AnymailSerializationError` otherwise. -/
def serialize_json : PyValue → Except AnymailError String
  | .json j => .ok j.dumps
  | .notSerializable _ => .error .serializationError

/-- The raw Python value, as assigned by `json = value` in
`set_metadata` when the serialized text starts with a quote (which is
only the case for a string value, so the fallback arm is unreachable). -/
def pyRawText : PyValue → String → String
  | .json (.str s), _ => s
  | _, dflt => dflt

/-- `set_metadata`: for each key/value, serialize the value to JSON
(raising a serialization error when impossible); when the JSON text
starts with a double quote (a plain string value), store the raw string
instead of the quoted text; store under the field `v:<key>`. -/
def MailgunPayload.set_metadata : MailgunPayload → List (String × PyValue) →
    Except AnymailError MailgunPayload
  | p, [] => .ok p
  | p, kv :: rest =>
    match serialize_json kv.2 with
    | .error e => .error e
    | .ok js =>
      let txt := if strStartsWith js quoteStr then pyRawText kv.2 js else js
      MailgunPayload.set_metadata
        { p with data := dinsert ("v:" ++ kv.1) (.str txt) p.data } rest

/-- The metadata storage rule as the spec words it, for comparison with
`set_metadata`: a plain string value is stored raw (unquoted), every
other serializable value as its literal JSON text (a non-serializable
value is never stored). -/
def specMetadataText : PyValue → String
  | .json (.str s) => s
  | .json j => j.dumps
  | .notSerializable _ => ""

/-! ## Response parsing -/

/-- Python subscripting `j[k]` on a deserialized JSON value: `none` when
the key is absent (`KeyError`) or the value is not an object
(`TypeError`); both exceptions are caught together by
`parse_recipient_status`. -/
def pySubscript (j : Json) (k : String) : Option Json :=
  match j with
  | .obj kvs => kvs.lookup k
  | _ => none

/-- The dict comprehension
`{recipient.email: status for recipient in payload.all_recipients}`. -/
def recipientStatusDict (st : AnymailRecipientStatus) (rs : List EmailAddress) :
    List (String × AnymailRecipientStatus) :=
  rs.foldl (fun d r => dinsert r.email st d) []

/-- `MailgunBackend.parse_recipient_status`, applied to the deserialized
JSON response body and the payload's `all_recipients`: fetch `"id"` and
`"message"` (a `KeyError`/`TypeError` becomes the classified
format error); calling `startswith` on a non-string message raises an
uncaught `AttributeError`; a message not starting with `"Queued"` raises
the classified unrecognized-message error; otherwise one queued status
per recipient, keyed by the plain email string. -/
def parse_recipient_status (parsed_response : Json) (all_recipients : List EmailAddress) :
    Except AnymailError (List (String × AnymailRecipientStatus)) :=
  match pySubscript parsed_response "id", pySubscript parsed_response "message" with
  | some message_id, some mailgun_message =>
    match mailgun_message with
    | .str s =>
      if strStartsWith s "Queued" then
        .ok (recipientStatusDict { message_id := message_id, status := "queued" } all_recipients)
      else
        .error (.apiUnrecognizedMessage s)
    | _ => .error .attributeError
  | _, _ => .error .apiFormatError

/-! ## Dictionary lemmas -/

theorem lookup_cons {V : Type} (k : String) (a : String × V) (d : List (String × V)) :
    (a :: d).lookup k = if k == a.1 then some a.2 else d.lookup k := by
  obtain ⟨a1, a2⟩ := a
  cases h : k == a1 <;> simp [List.lookup, h]

theorem lookup_append {V : Type} (l1 l2 : List (String × V)) (k : String) :
    (l1 ++ l2).lookup k = ((l1.lookup k).or (l2.lookup k)) := by
  induction l1 with
  | nil => simp [List.lookup]
  | cons a l1 ih =>
    rw [List.cons_append, lookup_cons, lookup_cons]
    cases h : k == a.1 <;> simp [ih]

theorem lookup_dpopKey_self {V : Type} (k : String) (d : List (String × V)) :
    (dpopKey k d).lookup k = none := by
  induction d with
  | nil => rfl
  | cons a d ih =>
    by_cases ha : a.1 = k
    · simpa [dpopKey, List.filter_cons, ha] using ih
    · have hb : (a.1 != k) = true := by simpa using ha
      have hk : (k == a.1) = false := by simpa using fun he => ha he.symm
      rw [dpopKey, List.filter_cons, if_pos hb, lookup_cons, hk]
      simpa [dpopKey] using ih

theorem lookup_dpopKey_ne {V : Type} {k1 k : String} (d : List (String × V)) (h : k1 ≠ k) :
    (dpopKey k d).lookup k1 = d.lookup k1 := by
  induction d with
  | nil => rfl
  | cons a d ih =>
    by_cases ha : a.1 = k
    · have hk1 : (k1 == a.1) = false := by simpa [ha] using h
      rw [dpopKey, List.filter_cons, if_neg (by simpa using ha), lookup_cons, hk1]
      simpa [dpopKey] using ih
    · have hb : (a.1 != k) = true := by simpa using ha
      rw [dpopKey, List.filter_cons, if_pos hb, lookup_cons, lookup_cons]
      cases hk1 : k1 == a.1
      · simpa [dpopKey] using ih
      · rfl

theorem dinsert_eq_dpopKey_append {V : Type} (k : String) (v : V) (d : List (String × V)) :
    dinsert k v d = dpopKey k d ++ [(k, v)] := rfl

theorem lookup_dinsert_self {V : Type} (k : String) (v : V) (d : List (String × V)) :
    (dinsert k v d).lookup k = some v := by
  rw [dinsert_eq_dpopKey_append, lookup_append, lookup_dpopKey_self]
  simp [lookup_cons]

theorem lookup_dinsert_ne {V : Type} {k1 k : String} (v : V) (d : List (String × V))
    (h : k1 ≠ k) : (dinsert k v d).lookup k1 = d.lookup k1 := by
  rw [dinsert_eq_dpopKey_append, lookup_append, lookup_dpopKey_ne d h, lookup_cons]
  have hk : (k1 == k) = false := by simpa using h
  simp [hk, List.lookup]

theorem mem_dinsert {V : Type} {kv : String × V} {k : String} {v : V} {d : List (String × V)}
    (h : kv ∈ dinsert k v d) : kv ∈ d ∨ kv = (k, v) := by
  rcases List.mem_append.mp h with h1 | h1
  · exact Or.inl (List.mem_of_mem_filter h1)
  · exact Or.inr (by simpa using h1)

theorem mem_keys_dinsert {V : Type} {k1 k : String} {v : V} {d : List (String × V)} :
    k1 ∈ (dinsert k v d).map Prod.fst ↔ k1 = k ∨ k1 ∈ d.map Prod.fst := by
  simp only [dinsert, List.map_append, List.mem_append, List.mem_map, List.mem_filter,
    bne_iff_ne, ne_eq]
  constructor
  · rintro (⟨kv, ⟨hm, _⟩, he⟩ | h1)
    · exact Or.inr ⟨kv, hm, he⟩
    · simp at h1
      exact Or.inl h1.symm
  · rintro (h1 | ⟨kv, hm, he⟩)
    · exact Or.inr (by simp [h1])
    · by_cases hk : k1 = k
      · exact Or.inr (by simp [hk])
      · exact Or.inl ⟨kv, ⟨hm, by rw [he]; exact hk⟩, he⟩

theorem lookup_isSome_of_mem_keys {V : Type} {k : String} {d : List (String × V)}
    (h : k ∈ d.map Prod.fst) : ∃ v, d.lookup k = some v := by
  induction d with
  | nil => simp at h
  | cons a d ih =>
    by_cases hk : k = a.1
    · exact ⟨a.2, by simp [lookup_cons, hk]⟩
    · have hk2 : (k == a.1) = false := by simpa using hk
      have hm : k ∈ d.map Prod.fst := by
        rcases List.mem_map.mp h with ⟨kv, hkv, he⟩
        rcases List.mem_cons.mp hkv with h1 | h1
        · exact absurd (by rw [← he, h1]) hk
        · exact List.mem_map.mpr ⟨kv, h1, he⟩
      rcases ih hm with ⟨v, hv⟩
      exact ⟨v, by rw [lookup_cons, hk2]; simpa using hv⟩

theorem mem_of_lookup_eq_some {V : Type} {k : String} {v : V} {d : List (String × V)}
    (h : d.lookup k = some v) : (k, v) ∈ d := by
  induction d with
  | nil => simp [List.lookup] at h
  | cons a d ih =>
    rw [lookup_cons] at h
    by_cases hk : k = a.1
    · rw [if_pos (by simpa using hk)] at h
      cases h
      exact List.mem_cons.mpr (Or.inl (by rw [hk]))
    · rw [if_neg (by simpa using hk)] at h
      exact List.mem_cons.mpr (Or.inr (ih h))

theorem mem_updateData {V : Type} {kv : String × V} {e d : List (String × V)}
    (h : kv ∈ updateData d e) : kv ∈ d ∨ kv ∈ e := by
  induction e generalizing d with
  | nil => exact Or.inl h
  | cons a e ih =>
    rcases ih (d := dinsert a.1 a.2 d) h with h1 | h1
    · rcases mem_dinsert h1 with h2 | h2
      · exact Or.inl h2
      · exact Or.inr (List.mem_cons.mpr (Or.inl (by simpa using h2)))
    · exact Or.inr (List.mem_cons.mpr (Or.inr h1))

theorem mem_keys_updateData {V : Type} {k : String} {e d : List (String × V)} :
    k ∈ (updateData d e).map Prod.fst ↔ k ∈ d.map Prod.fst ∨ k ∈ e.map Prod.fst := by
  induction e generalizing d with
  | nil => simp [updateData]
  | cons a e ih =>
    have hu : updateData d (a :: e) = updateData (dinsert a.1 a.2 d) e := rfl
    rw [hu, ih, mem_keys_dinsert]
    simp only [List.map_cons, List.mem_cons]
    tauto

theorem lookup_updateData_of_notMem {V : Type} {k : String} {e d : List (String × V)}
    (h : k ∉ e.map Prod.fst) : (updateData d e).lookup k = d.lookup k := by
  induction e generalizing d with
  | nil => rfl
  | cons a e ih =>
    have hne : k ≠ a.1 := fun he => h (by simp [he])
    have htail : k ∉ e.map Prod.fst := fun hm =>
      h (by rw [List.map_cons]; exact List.mem_cons_of_mem _ hm)
    calc (updateData (dinsert a.1 a.2 d) e).lookup k
        = (dinsert a.1 a.2 d).lookup k := ih htail
      _ = d.lookup k := lookup_dinsert_ne _ _ hne

theorem lookup_updateData_of_mem {V : Type} {k : String} {v : V} {e d : List (String × V)}
    (hnd : (e.map Prod.fst).Nodup) (h : e.lookup k = some v) :
    (updateData d e).lookup k = some v := by
  induction e generalizing d with
  | nil => simp [List.lookup] at h
  | cons a e ih =>
    simp only [List.map_cons, List.nodup_cons] at hnd
    rw [lookup_cons] at h
    by_cases hk : k = a.1
    · rw [if_pos (by simpa using hk)] at h
      cases h
      have hstep : (updateData (dinsert a.1 a.2 d) e).lookup k = (dinsert a.1 a.2 d).lookup k :=
        lookup_updateData_of_notMem (by rw [hk]; exact hnd.1)
      rw [show updateData d (a :: e) = updateData (dinsert a.1 a.2 d) e from rfl, hstep, hk]
      exact lookup_dinsert_self _ _ _
    · rw [if_neg (by simpa using hk)] at h
      exact ih hnd.2 h

/-! ## Characterizing which JSON texts start with a quote -/

theorem natDigitsAux_shape (fuel : Nat) :
    ∀ n c, c ∈ natDigitsAux fuel n → ∃ m, m < 10 ∧ c = Nat.digitChar m := by
  induction fuel with
  | zero => intro n c hc; simp [natDigitsAux] at hc
  | succ fuel ih =>
    intro n c hc
    rw [natDigitsAux] at hc
    split at hc
    · simp at hc
      exact ⟨n, by omega, hc⟩
    · rw [List.mem_append] at hc
      rcases hc with hc | hc
      · exact ih (n / 10) c hc
      · simp at hc
        exact ⟨n % 10, Nat.mod_lt _ (by omega), hc⟩

theorem digitChar_ne_quote (m : Nat) (h : m < 10) : (quoteChar == Nat.digitChar m) = false := by
  interval_cases m <;> decide

theorem quote_notMem_intRepr (i : Int) : ∀ c ∈ (intRepr i).data, (quoteChar == c) = false := by
  have hnat : ∀ n c, c ∈ natDigits n → (quoteChar == c) = false := by
    intro n c hc
    rcases natDigitsAux_shape (n + 1) n c hc with ⟨m, hm, he⟩
    rw [he]
    exact digitChar_ne_quote m hm
  cases i with
  | ofNat n =>
    intro c hc
    exact hnat n c hc
  | negSucc n =>
    intro c hc
    rw [intRepr, String.data_append] at hc
    rcases List.mem_append.mp hc with hc | hc
    · simp at hc
      rw [hc]
      decide
    · exact hnat (n + 1) c hc

theorem notStartQuote_of_quote_notMem {l : List Char}
    (h : ∀ c ∈ l, (quoteChar == c) = false) :
    List.isPrefixOf [quoteChar] l = false := by
  cases l with
  | nil => rfl
  | cons c t =>
    have := h c (List.mem_cons_self c t)
    simp [List.isPrefixOf, this]

theorem notStartQuote_append {s t : String}
    (h1 : List.isPrefixOf [quoteChar] s.data = false) (h2 : s.data ≠ []) :
    List.isPrefixOf [quoteChar] (s ++ t).data = false := by
  rw [String.data_append]
  cases hs : s.data with
  | nil => exact absurd hs h2
  | cons c l =>
    rw [hs] at h1
    rw [List.cons_append]
    simp only [List.isPrefixOf] at h1 ⊢
    simpa using h1

/-- Only the JSON text of a string value starts with a double quote. -/
theorem dumps_startsWith_quote_iff (j : Json) :
    strStartsWith j.dumps quoteStr = true ↔ ∃ s, j = Json.str s := by
  have hq : quoteStr.data = [quoteChar] := rfl
  cases j with
  | null =>
    constructor
    · intro h
      rw [show strStartsWith (Json.dumps Json.null) quoteStr = false from by decide] at h
      cases h
    · rintro ⟨s, h⟩; cases h
  | bool b =>
    constructor
    · intro h
      cases b
      · rw [show strStartsWith (Json.dumps (Json.bool false)) quoteStr = false from by decide] at h
        cases h
      · rw [show strStartsWith (Json.dumps (Json.bool true)) quoteStr = false from by decide] at h
        cases h
    · rintro ⟨s, h⟩; cases h
  | num n =>
    constructor
    · intro h
      rw [strStartsWith, hq] at h
      rw [show (Json.num n).dumps = intRepr n from rfl] at h
      rw [notStartQuote_of_quote_notMem (quote_notMem_intRepr n)] at h
      cases h
    · rintro ⟨s, h⟩; cases h
  | str s =>
    constructor
    · intro _; exact ⟨s, rfl⟩
    · intro _
      rw [strStartsWith, hq]
      rw [show (Json.str s).dumps = quoteStr ++ jsonEscape s ++ quoteStr from rfl]
      rw [String.data_append, String.data_append, hq, List.cons_append]
      simp [List.isPrefixOf]
  | arr xs =>
    constructor
    · intro h
      rw [strStartsWith, hq] at h
      rw [show (Json.arr xs).dumps = ("[" ++ dumpsElems xs ++ "]") from by rw [Json.dumps]] at h
      rw [notStartQuote_append (notStartQuote_append (by decide) (by decide))
          (by rw [String.data_append]; simp)] at h
      cases h
    · rintro ⟨s, h⟩; cases h
  | obj kvs =>
    constructor
    · intro h
      rw [strStartsWith, hq] at h
      rw [show (Json.obj kvs).dumps = ("\x7b" ++ dumpsFields kvs ++ "\x7d") from by rw [Json.dumps]] at h
      rw [notStartQuote_append (notStartQuote_append (by decide) (by decide))
          (by rw [String.data_append]; simp)] at h
      cases h
    · rintro ⟨s, h⟩; cases h

/-! ## Lemmas about the recipient status dictionary -/

theorem recipientStatusDict_eq_updateData (st : AnymailRecipientStatus)
    (rs : List EmailAddress) :
    recipientStatusDict st rs = updateData [] (rs.map (fun r => (r.email, st))) := by
  rw [recipientStatusDict, updateData, List.foldl_map]

theorem recipientStatusDict_lookup (st : AnymailRecipientStatus) (rs : List EmailAddress)
    {r : EmailAddress} (hr : r ∈ rs) :
    (recipientStatusDict st rs).lookup r.email = some st := by
  rw [recipientStatusDict_eq_updateData]
  have hk : r.email ∈ (rs.map (fun r => (r.email, st))).map Prod.fst := by
    rw [List.map_map]
    exact List.mem_map.mpr ⟨r, hr, rfl⟩
  have hk2 : r.email ∈ (updateData [] (rs.map (fun r => (r.email, st)))).map Prod.fst :=
    mem_keys_updateData.mpr (Or.inr hk)
  rcases lookup_isSome_of_mem_keys hk2 with ⟨v, hv⟩
  have hmem := mem_of_lookup_eq_some hv
  rcases mem_updateData hmem with h1 | h1
  · simp at h1
  · rcases List.mem_map.mp h1 with ⟨r2, _, he⟩
    have : v = st := congrArg Prod.snd he.symm
    rw [hv, this]

theorem recipientStatusDict_mem (st : AnymailRecipientStatus) (rs : List EmailAddress)
    {kv : String × AnymailRecipientStatus} (h : kv ∈ recipientStatusDict st rs) :
    kv.2 = st ∧ kv.1 ∈ rs.map EmailAddress.email := by
  rw [recipientStatusDict_eq_updateData] at h
  rcases mem_updateData h with h1 | h1
  · simp at h1
  · rcases List.mem_map.mp h1 with ⟨r, hr, he⟩
    constructor
    · exact congrArg Prod.snd he.symm
    · exact List.mem_map.mpr ⟨r, hr, congrArg Prod.fst he⟩

/-! ## Lemmas about metadata storage -/

theorem str_append_left_cancel {a b c : String} (h : a ++ b = a ++ c) : b = c := by
  have h2 : (a ++ b).data = (a ++ c).data := congrArg String.data h
  rw [String.data_append, String.data_append] at h2
  exact String.ext (List.append_cancel_left h2)

theorem specMetadataText_eq_dumps {j : Json} (hn : ∀ s, j ≠ Json.str s) :
    specMetadataText (.json j) = j.dumps := by
  cases j with
  | str s => exact absurd rfl (hn s)
  | null => rfl
  | bool b => rfl
  | num n => rfl
  | arr xs => rfl
  | obj kvs => rfl

theorem set_metadata_ok (p : MailgunPayload) (m : List (String × PyValue))
    (h : ∀ kv ∈ m, kv.2.serializable = true) :
    MailgunPayload.set_metadata p m
      = .ok { p with
          data := updateData p.data
            (m.map (fun kv => ("v:" ++ kv.1, Value.str (specMetadataText kv.2)))) } := by
  induction m generalizing p with
  | nil => rfl
  | cons kv rest ih =>
    obtain ⟨k0, v0⟩ := kv
    have h0 := h (k0, v0) (List.mem_cons_self _ _)
    have htail : ∀ kv ∈ rest, kv.2.serializable = true :=
      fun kv hm => h kv (List.mem_cons_of_mem _ hm)
    cases v0 with
    | notSerializable t => simp [PyValue.serializable] at h0
    | json j =>
      have hstep : MailgunPayload.set_metadata p ((k0, PyValue.json j) :: rest)
          = MailgunPayload.set_metadata
              { p with
                data := dinsert ("v:" ++ k0)
                  (.str (if strStartsWith j.dumps quoteStr = true
                         then pyRawText (PyValue.json j) j.dumps else j.dumps)) p.data }
              rest := rfl
      rw [hstep]
      by_cases hq2 : strStartsWith j.dumps quoteStr = true
      · rcases (dumps_startsWith_quote_iff j).mp hq2 with ⟨s, rfl⟩
        rw [if_pos hq2]
        rw [show pyRawText (PyValue.json (Json.str s)) (Json.str s).dumps = s from rfl]
        rw [ih _ htail]
        rfl
      · rw [if_neg hq2]
        have hns : ∀ s, j ≠ Json.str s := by
          intro s he
          exact hq2 ((dumps_startsWith_quote_iff j).mpr ⟨s, he⟩)
        rw [ih _ htail]
        have hsp : specMetadataText (.json j) = j.dumps := specMetadataText_eq_dumps hns
        rw [show (((k0, PyValue.json j) :: rest).map
              (fun kv => ("v:" ++ kv.1, Value.str (specMetadataText kv.2))))
            = ("v:" ++ k0, Value.str (specMetadataText (.json j)))
                :: rest.map (fun kv => ("v:" ++ kv.1, Value.str (specMetadataText kv.2)))
            from rfl]
        rw [hsp]
        rfl

theorem set_metadata_error (p : MailgunPayload) (m : List (String × PyValue))
    (h : ∃ kv ∈ m, kv.2.serializable = false) :
    MailgunPayload.set_metadata p m = .error .serializationError := by
  induction m generalizing p with
  | nil => simp at h
  | cons kv rest ih =>
    obtain ⟨k0, v0⟩ := kv
    cases v0 with
    | notSerializable t => rfl
    | json j =>
      have h2 : ∃ kv ∈ rest, kv.2.serializable = false := by
        rcases h with ⟨kv2, hm, hs⟩
        rcases List.mem_cons.mp hm with h1 | h1
        · rw [h1] at hs
          simp [PyValue.serializable] at hs
        · exact ⟨kv2, h1, hs⟩
      have hstep : MailgunPayload.set_metadata p ((k0, PyValue.json j) :: rest)
          = MailgunPayload.set_metadata
              { p with
                data := dinsert ("v:" ++ k0)
                  (.str (if strStartsWith j.dumps quoteStr = true
                         then pyRawText (PyValue.json j) j.dumps else j.dumps)) p.data }
              rest := rfl
      rw [hstep]
      exact ih _ h2

theorem lookup_map_vkey (m : List (String × PyValue)) (k : String) (v : PyValue)
    (h : m.lookup k = some v) :
    (m.map (fun kv => ("v:" ++ kv.1, Value.str (specMetadataText kv.2)))).lookup ("v:" ++ k)
      = some (Value.str (specMetadataText v)) := by
  induction m with
  | nil => simp [List.lookup] at h
  | cons a rest ih =>
    rw [lookup_cons] at h
    rw [List.map_cons, lookup_cons]
    by_cases hk : k = a.1
    · rw [if_pos (by simpa using hk)] at h
      cases h
      rw [if_pos (by simp [hk])]
    · rw [if_neg (by simpa using hk)] at h
      have hne : ("v:" ++ k) ≠ ("v:" ++ a.1) := fun he => hk (str_append_left_cancel he)
      rw [if_neg (by simpa using hne)]
      exact ih h

/-! ## Claim theorems -/

/-- Claim C1: for every message whose recipients were set via the
recipient setters and every response whose JSON body has an `id` string
and a `message` string starting with `Queued`, `parse_recipient_status`
returns a mapping with an entry for each address of `all_recipients`,
keyed by the address's plain email string, every entry carrying
`message_id` equal to the response's `id` value and status `queued`. -/
theorem parse_recipient_status_queued (kvs : List (String × Json))
    (rs : List EmailAddress) (idStr msg : String)
    (hid : kvs.lookup "id" = some (.str idStr))
    (hmsg : kvs.lookup "message" = some (.str msg))
    (hq : strStartsWith msg "Queued" = true) :
    ∃ m, parse_recipient_status (.obj kvs) rs = .ok m
      ∧ (∀ r ∈ rs, m.lookup r.email = some ⟨.str idStr, "queued"⟩)
      ∧ (∀ kv ∈ m, kv.2.message_id = .str idStr ∧ kv.2.status = "queued"
          ∧ kv.1 ∈ rs.map EmailAddress.email) := by
  refine ⟨recipientStatusDict ⟨.str idStr, "queued"⟩ rs, ?_, ?_, ?_⟩
  · simp [parse_recipient_status, pySubscript, hid, hmsg, hq]
  · intro r hr
    exact recipientStatusDict_lookup _ _ hr
  · intro kv hkv
    have h := recipientStatusDict_mem _ _ hkv
    exact ⟨by rw [h.1], by rw [h.1], h.2⟩

/-- Witness for C1: the spec's own example, a response
`{"id": "MSG123", "message": "Queued. Thank you."}` with two
recipients. -/
theorem parse_recipient_status_queued_witness :
    strStartsWith "Queued. Thank you." "Queued" = true
    ∧ parse_recipient_status
        (.obj [("id", .str "MSG123"), ("message", .str "Queued. Thank you.")])
        [⟨"", "a@x.com"⟩, ⟨"", "b@x.com"⟩]
      = .ok [("a@x.com", ⟨.str "MSG123", "queued"⟩), ("b@x.com", ⟨.str "MSG123", "queued"⟩)]
    ∧ (∃ m, parse_recipient_status
          (.obj [("id", .str "MSG123"), ("message", .str "Queued. Thank you.")])
          [⟨"", "a@x.com"⟩, ⟨"", "b@x.com"⟩]
        = .ok m
        ∧ (∀ r ∈ [(⟨"", "a@x.com"⟩ : EmailAddress), ⟨"", "b@x.com"⟩],
            m.lookup r.email = some ⟨.str "MSG123", "queued"⟩)
        ∧ (∀ kv ∈ m, kv.2.message_id = .str "MSG123" ∧ kv.2.status = "queued"
            ∧ kv.1 ∈ [(⟨"", "a@x.com"⟩ : EmailAddress), ⟨"", "b@x.com"⟩].map
                EmailAddress.email)) :=
  ⟨by decide, rfl,
    parse_recipient_status_queued _ _ "MSG123" "Queued. Thank you." rfl rfl (by decide)⟩

/-- Claim C2: for every response whose JSON body has an `id` key and a
`message` string not starting with `Queued`, `parse_recipient_status`
raises the classified unrecognized-message API error (so no status map is
returned). -/
theorem parse_recipient_status_unrecognized (kvs : List (String × Json))
    (rs : List EmailAddress) (idv : Json) (msg : String)
    (hid : kvs.lookup "id" = some idv)
    (hmsg : kvs.lookup "message" = some (.str msg))
    (hq : strStartsWith msg "Queued" = false) :
    parse_recipient_status (.obj kvs) rs = .error (.apiUnrecognizedMessage msg) := by
  simp [parse_recipient_status, pySubscript, hid, hmsg, hq]

/-- Witness for C2: the spec's example `{"id": "MSG123", "message":
"Rejected"}`. -/
theorem parse_recipient_status_unrecognized_witness :
    strStartsWith "Rejected" "Queued" = false
    ∧ parse_recipient_status
        (.obj [("id", .str "MSG123"), ("message", .str "Rejected")]) [⟨"", "a@x.com"⟩]
      = .error (.apiUnrecognizedMessage "Rejected") :=
  ⟨by decide,
    parse_recipient_status_unrecognized _ [⟨"", "a@x.com"⟩] (.str "MSG123") "Rejected"
      rfl rfl (by decide)⟩

/-- Counterexample to claim C4 as stated: a response whose `id` value is
not a string (here the number 42) does not raise the invalid-response
format error; `parse_recipient_status` silently accepts it and returns a
status map carrying the non-string id. -/
theorem parse_recipient_status_nonstring_id_accepted :
    parse_recipient_status
        (.obj [("id", .num 42), ("message", .str "Queued. Thank you.")]) [⟨"", "a@x.com"⟩]
      = .ok [("a@x.com", ⟨.num 42, "queued"⟩)] := rfl

/-- Claim C4 (amended): a deserialized body that is not an object, or an
object missing the `id` or the `message` key, raises the classified
invalid-response-format error; wrong types are not detected that way: a
non-string `message` value escapes as an unclassified attribute error
(and, per the counterexample, a non-string `id` is accepted silently). -/
theorem parse_recipient_status_format_errors :
    (∀ (j : Json) (rs : List EmailAddress),
        pySubscript j "id" = none ∨ pySubscript j "message" = none →
        parse_recipient_status j rs = .error .apiFormatError)
    ∧ (∀ (j : Json) (rs : List EmailAddress) (mv : Json),
        pySubscript j "id" ≠ none → pySubscript j "message" = some mv →
        (∀ s, mv ≠ Json.str s) →
        parse_recipient_status j rs = .error .attributeError) := by
  constructor
  · intro j rs h
    cases h1 : pySubscript j "id" with
    | none =>
      cases h2 : pySubscript j "message" with
      | none => simp [parse_recipient_status, h1, h2]
      | some mv => simp [parse_recipient_status, h1, h2]
    | some idv =>
      rcases h with h | h
      · rw [h1] at h
        cases h
      · simp [parse_recipient_status, h1, h]
  · intro j rs mv hid hmsg hm
    cases h1 : pySubscript j "id" with
    | none => exact absurd h1 hid
    | some idv =>
      cases mv with
      | str s => exact absurd rfl (hm s)
      | null => simp [parse_recipient_status, h1, hmsg]
      | bool b => simp [parse_recipient_status, h1, hmsg]
      | num n => simp [parse_recipient_status, h1, hmsg]
      | arr xs => simp [parse_recipient_status, h1, hmsg]
      | obj kvs2 => simp [parse_recipient_status, h1, hmsg]

/-- Witness for the amended C4: a body missing `id` yields the format
error; a non-object body yields the format error; a non-string `message`
value escapes as the unclassified attribute error. -/
theorem parse_recipient_status_format_errors_witness :
    parse_recipient_status (.obj [("message", .str "Queued. Thank you.")]) [⟨"", "a@x.com"⟩]
      = .error .apiFormatError
    ∧ parse_recipient_status (.str "not an object") [⟨"", "a@x.com"⟩]
      = .error .apiFormatError
    ∧ parse_recipient_status (.obj [("id", .str "MSG123"), ("message", .num 1)])
        [⟨"", "a@x.com"⟩]
      = .error .attributeError :=
  ⟨parse_recipient_status_format_errors.1 _ _ (Or.inl rfl),
    parse_recipient_status_format_errors.1 _ _ (Or.inl rfl),
    parse_recipient_status_format_errors.2 _ _ (.num 1)
      (fun h => Option.noConfusion h) rfl (fun _ h => Json.noConfusion h)⟩

/-- Counterexample to claim C3 as stated: after setting the html body
twice, the stored `html` field holds the second value, not the value of
the first call — the second call does overwrite. -/
theorem set_html_body_second_value_kept :
    ((init_payload.set_html_body "first").set_html_body "second").data.lookup "html"
      = some (.str "second")
    ∧ Value.str "second" ≠ Value.str "first" := by
  constructor
  · rfl
  · decide

/-- Claim C3 (amended): a second call to the html-body setter records the
"multiple html parts" unsupported-feature notice and does not raise, but
it overwrites the stored `html` field with the second value (the first
value does not remain). -/
theorem set_html_body_overwrites (p : MailgunPayload) (b1 b2 : String)
    (h : p.data.lookup "html" = none) :
    (p.set_html_body b1).data.lookup "html" = some (.str b1)
    ∧ (p.set_html_body b1).unsupported_features = p.unsupported_features
    ∧ ((p.set_html_body b1).set_html_body b2).data.lookup "html" = some (.str b2)
    ∧ ((p.set_html_body b1).set_html_body b2).unsupported_features
        = p.unsupported_features ++ ["multiple html parts"] := by
  have h1 : p.set_html_body b1
      = { p with data := dinsert "html" (.str b1) p.data } := by
    rw [MailgunPayload.set_html_body, h]
    rfl
  have h2 : (p.set_html_body b1).set_html_body b2
      = { p with
          data := dinsert "html" (.str b2) (dinsert "html" (.str b1) p.data),
          unsupported_features := p.unsupported_features ++ ["multiple html parts"] } := by
    rw [h1, MailgunPayload.set_html_body, lookup_dinsert_self]
    rfl
  refine ⟨?_, ?_, ?_, ?_⟩
  · rw [h1]
    exact lookup_dinsert_self _ _ _
  · rw [h1]
  · rw [h2]
    exact lookup_dinsert_self _ _ _
  · rw [h2]

/-- Witness for the amended C3: concrete double html-body set on a fresh
payload. -/
theorem set_html_body_overwrites_witness :
    (init_payload.data.lookup "html" = none)
    ∧ ((init_payload.set_html_body "first").data.lookup "html" = some (.str "first")
      ∧ (init_payload.set_html_body "first").unsupported_features
          = init_payload.unsupported_features
      ∧ ((init_payload.set_html_body "first").set_html_body "second").data.lookup "html"
          = some (.str "second")
      ∧ ((init_payload.set_html_body "first").set_html_body "second").unsupported_features
          = init_payload.unsupported_features ++ ["multiple html parts"]) :=
  ⟨rfl, set_html_body_overwrites init_payload "first" "second" rfl⟩

/-- Claim C5: with no prior sender-domain override, a from-address of the
form `local@domain` sets the sender domain to the domain part and makes
`get_api_endpoint` return `domain/messages`; a from-address with no `@`
leaves the sender domain unset and `get_api_endpoint` then raises the
classified configuration error. -/
theorem set_from_email_domain_inference (p q : MailgunPayload) (a b : EmailAddress)
    (l d s : String)
    (hp : p.sender_domain = none) (ha : pySplit a.email '@' = [l, d])
    (hq : q.sender_domain = none) (hb : pySplit b.email '@' = [s]) :
    ((p.set_from_email a).sender_domain = some (.str d)
      ∧ (p.set_from_email a).get_api_endpoint = .ok (d ++ "/messages"))
    ∧ ((q.set_from_email b).sender_domain = none
      ∧ (q.set_from_email b).get_api_endpoint = .error .configError) := by
  refine ⟨⟨?_, ?_⟩, ?_, ?_⟩
  · simp [MailgunPayload.set_from_email, hp, ha]
  · simp [MailgunPayload.set_from_email, MailgunPayload.get_api_endpoint, hp, ha, Value.pyStr]
  · simp [MailgunPayload.set_from_email, hq, hb]
  · simp [MailgunPayload.set_from_email, MailgunPayload.get_api_endpoint, hq, hb]

/-- Witness for C5: `a@example.com` yields domain `example.com` and
endpoint `example.com/messages`; `invalid` (no `@`) leaves the domain
unset and the endpoint raises the configuration error. -/
theorem set_from_email_domain_inference_witness :
    pySplit "a@example.com" '@' = ["a", "example.com"]
    ∧ pySplit "invalid" '@' = ["invalid"]
    ∧ (((init_payload.set_from_email ⟨"", "a@example.com"⟩).sender_domain
          = some (.str "example.com")
        ∧ (init_payload.set_from_email ⟨"", "a@example.com"⟩).get_api_endpoint
          = .ok ("example.com" ++ "/messages"))
      ∧ ((init_payload.set_from_email ⟨"", "invalid"⟩).sender_domain = none
        ∧ (init_payload.set_from_email ⟨"", "invalid"⟩).get_api_endpoint
          = .error .configError)) :=
  ⟨by decide, by decide,
    set_from_email_domain_inference init_payload init_payload ⟨"", "a@example.com"⟩
      ⟨"", "invalid"⟩ "a" "example.com" "invalid" rfl (by decide) rfl (by decide)⟩

/-- Claim C9: a from-address containing more than one `@` (so the split
yields three or more parts) also leaves the sender domain unset, silently,
exactly like an address without `@`; the stringified address is still
stored under the `from` field. -/
theorem set_from_email_multiple_at (p : MailgunPayload) (a : EmailAddress)
    (hp : p.sender_domain = none) (hs : 2 < (pySplit a.email '@').length) :
    (p.set_from_email a).sender_domain = none
    ∧ (p.set_from_email a).data.lookup "from" = some (.str a.pyStr) := by
  obtain ⟨x, y, z, t, hsp⟩ : ∃ x y z t, pySplit a.email '@' = x :: y :: z :: t := by
    rcases hl : pySplit a.email '@' with _ | ⟨x, _ | ⟨y, _ | ⟨z, t⟩⟩⟩
    · rw [hl] at hs
      simp at hs
    · rw [hl] at hs
      simp at hs
    · rw [hl] at hs
      simp at hs
    · exact ⟨x, y, z, t, rfl⟩
  constructor
  · simp [MailgunPayload.set_from_email, hp, hsp]
  · simp [MailgunPayload.set_from_email, hp, hsp, lookup_dinsert_self]

/-- Witness for C9: the address `a@b@c.com` splits into three parts,
leaves the domain unset and is stored under `from`. -/
theorem set_from_email_multiple_at_witness :
    2 < (pySplit "a@b@c.com" '@').length
    ∧ ((init_payload.set_from_email ⟨"", "a@b@c.com"⟩).sender_domain = none
      ∧ (init_payload.set_from_email ⟨"", "a@b@c.com"⟩).data.lookup "from"
          = some (.str (EmailAddress.pyStr ⟨"", "a@b@c.com"⟩))) :=
  ⟨by decide, set_from_email_multiple_at init_payload ⟨"", "a@b@c.com"⟩ rfl (by decide)⟩

/-- Claim C6: an esp_extra mapping containing `sender_domain` overwrites
the sender domain (the endpoint becomes that domain's `/messages` path),
merges every other key into the field map, and the literal field
`sender_domain` never appears in the outgoing field map. -/
theorem set_esp_extra_sender_domain_override (p : MailgunPayload)
    (extra : List (String × Value)) (dom : String)
    (hnd : (extra.map Prod.fst).Nodup)
    (hdom : extra.lookup "sender_domain" = some (.str dom)) :
    (p.set_esp_extra extra).sender_domain = some (.str dom)
    ∧ (p.set_esp_extra extra).get_api_endpoint = .ok (dom ++ "/messages")
    ∧ (p.set_esp_extra extra).data.lookup "sender_domain" = none
    ∧ (∀ k v, k ≠ "sender_domain" → extra.lookup k = some v →
        (p.set_esp_extra extra).data.lookup k = some v) := by
  have hup : (updateData p.data extra).lookup "sender_domain" = some (.str dom) :=
    lookup_updateData_of_mem hnd hdom
  have hred : p.set_esp_extra extra
      = { p with
          data := dpopKey "sender_domain" (updateData p.data extra),
          sender_domain := some (.str dom) } := by
    simp only [MailgunPayload.set_esp_extra]
    rw [hup]
  refine ⟨?_, ?_, ?_, ?_⟩
  · rw [hred]
  · rw [hred]
    rfl
  · rw [hred]
    exact lookup_dpopKey_self _ _
  · intro k v hk hv
    rw [hred]
    show (dpopKey "sender_domain" (updateData p.data extra)).lookup k = some v
    rw [lookup_dpopKey_ne _ hk]
    exact lookup_updateData_of_mem hnd hv

/-- Witness for C6: `esp_extra = {"sender_domain": "override.com",
"o:tag": ["x"]}` applied after the from setter. -/
theorem set_esp_extra_sender_domain_override_witness :
    (([("sender_domain", Value.str "override.com"), ("o:tag", Value.list ["x"])].map
        Prod.fst).Nodup)
    ∧ (((init_payload.set_from_email ⟨"", "a@example.com"⟩).set_esp_extra
          [("sender_domain", .str "override.com"), ("o:tag", .list ["x"])]).sender_domain
        = some (.str "override.com")
      ∧ ((init_payload.set_from_email ⟨"", "a@example.com"⟩).set_esp_extra
          [("sender_domain", .str "override.com"), ("o:tag", .list ["x"])]).get_api_endpoint
        = .ok ("override.com" ++ "/messages")
      ∧ ((init_payload.set_from_email ⟨"", "a@example.com"⟩).set_esp_extra
          [("sender_domain", .str "override.com"), ("o:tag", .list ["x"])]).data.lookup
            "sender_domain" = none
      ∧ (∀ k v, k ≠ "sender_domain" →
          ([("sender_domain", Value.str "override.com"),
            ("o:tag", Value.list ["x"])].lookup k) = some v →
          ((init_payload.set_from_email ⟨"", "a@example.com"⟩).set_esp_extra
            [("sender_domain", .str "override.com"), ("o:tag", .list ["x"])]).data.lookup k
            = some v)) :=
  ⟨by decide,
    set_esp_extra_sender_domain_override (init_payload.set_from_email ⟨"", "a@example.com"⟩)
      [("sender_domain", .str "override.com"), ("o:tag", .list ["x"])] "override.com"
      (by decide) rfl⟩

/-- Claim C10: an esp_extra mapping without the key `sender_domain`
leaves the previously captured sender domain unchanged (the pop falls
back to the current value) while still merging every entry of the
mapping into the field map. The hypothesis that the field map holds no
literal `sender_domain` entry is an invariant of every payload the
setters build, since `set_esp_extra` is the only setter that could store
that key and it always pops it. -/
theorem set_esp_extra_without_sender_domain (p : MailgunPayload)
    (extra : List (String × Value))
    (hnd : (extra.map Prod.fst).Nodup)
    (hno : extra.lookup "sender_domain" = none)
    (hdata : p.data.lookup "sender_domain" = none) :
    (p.set_esp_extra extra).sender_domain = p.sender_domain
    ∧ (∀ k v, extra.lookup k = some v → (p.set_esp_extra extra).data.lookup k = some v) := by
  have hnm : "sender_domain" ∉ extra.map Prod.fst := by
    intro hm
    rcases lookup_isSome_of_mem_keys hm with ⟨v, hv⟩
    rw [hv] at hno
    cases hno
  have hup : (updateData p.data extra).lookup "sender_domain" = none := by
    rw [lookup_updateData_of_notMem hnm]
    exact hdata
  have hred : p.set_esp_extra extra = { p with data := updateData p.data extra } := by
    simp only [MailgunPayload.set_esp_extra]
    rw [hup]
  constructor
  · rw [hred]
  · intro k v hv
    rw [hred]
    show (updateData p.data extra).lookup k = some v
    exact lookup_updateData_of_mem hnd hv

/-- Witness for C10: `esp_extra = {"o:tag": ["x"]}` after the from setter
leaves the inferred domain as it was and merges the entry. -/
theorem set_esp_extra_without_sender_domain_witness :
    (([("o:tag", Value.list ["x"])].map Prod.fst).Nodup)
    ∧ ([("o:tag", Value.list ["x"])].lookup "sender_domain" = none)
    ∧ ((init_payload.set_from_email ⟨"", "a@example.com"⟩).data.lookup "sender_domain"
        = none)
    ∧ (((init_payload.set_from_email ⟨"", "a@example.com"⟩).set_esp_extra
          [("o:tag", .list ["x"])]).sender_domain
        = (init_payload.set_from_email ⟨"", "a@example.com"⟩).sender_domain
      ∧ (∀ k v, ([("o:tag", Value.list ["x"])].lookup k) = some v →
          ((init_payload.set_from_email ⟨"", "a@example.com"⟩).set_esp_extra
            [("o:tag", .list ["x"])]).data.lookup k = some v)) :=
  ⟨by decide, rfl, by decide,
    set_esp_extra_without_sender_domain (init_payload.set_from_email ⟨"", "a@example.com"⟩)
      [("o:tag", .list ["x"])] (by decide) rfl (by decide)⟩

/-- Claim C8: setting non-empty to, cc and bcc lists accumulates in
`all_recipients` exactly the addresses passed across the three calls (as
a multiset: no omission, no duplication beyond multiple memberships), and
each list is also stored stringified under its recipient-type field. -/
theorem set_recipients_accumulation (ts cs bs : List EmailAddress)
    (hts : ts ≠ []) (hcs : cs ≠ []) (hbs : bs ≠ []) :
    (((init_payload.set_recipients "to" ts).set_recipients "cc" cs).set_recipients
        "bcc" bs).all_recipients = ts ++ cs ++ bs
    ∧ ((((init_payload.set_recipients "to" ts).set_recipients "cc" cs).set_recipients
        "bcc" bs).all_recipients : Multiset EmailAddress)
      = (↑(ts ++ cs ++ bs) : Multiset EmailAddress)
    ∧ (((init_payload.set_recipients "to" ts).set_recipients "cc" cs).set_recipients
        "bcc" bs).data.lookup "to" = some (.list (ts.map EmailAddress.pyStr))
    ∧ (((init_payload.set_recipients "to" ts).set_recipients "cc" cs).set_recipients
        "bcc" bs).data.lookup "cc" = some (.list (cs.map EmailAddress.pyStr))
    ∧ (((init_payload.set_recipients "to" ts).set_recipients "cc" cs).set_recipients
        "bcc" bs).data.lookup "bcc" = some (.list (bs.map EmailAddress.pyStr)) := by
  have h1 : ts.isEmpty = false := by
    cases ts with
    | nil => exact absurd rfl hts
    | cons a t => rfl
  have h2 : cs.isEmpty = false := by
    cases cs with
    | nil => exact absurd rfl hcs
    | cons a t => rfl
  have h3 : bs.isEmpty = false := by
    cases bs with
    | nil => exact absurd rfl hbs
    | cons a t => rfl
  have hred : ((init_payload.set_recipients "to" ts).set_recipients "cc" cs).set_recipients
      "bcc" bs
      = { data := dinsert "bcc" (.list (bs.map EmailAddress.pyStr))
            (dinsert "cc" (.list (cs.map EmailAddress.pyStr))
              (dinsert "to" (.list (ts.map EmailAddress.pyStr)) [])),
          sender_domain := none,
          all_recipients := (([] ++ ts) ++ cs) ++ bs,
          unsupported_features := [] } := by
    simp only [MailgunPayload.set_recipients, init_payload, h1, h2, h3, Bool.false_eq_true,
      if_false]
  have hall : (((init_payload.set_recipients "to" ts).set_recipients "cc" cs).set_recipients
      "bcc" bs).all_recipients = ts ++ cs ++ bs := by
    rw [hred]
    simp [List.append_assoc]
  refine ⟨hall, by rw [hall], ?_, ?_, ?_⟩
  · rw [hred]
    show (dinsert "bcc" _ (dinsert "cc" _ (dinsert "to" _ []))).lookup "to" = _
    rw [lookup_dinsert_ne _ _ (by decide), lookup_dinsert_ne _ _ (by decide),
      lookup_dinsert_self]
  · rw [hred]
    show (dinsert "bcc" _ (dinsert "cc" _ (dinsert "to" _ []))).lookup "cc" = _
    rw [lookup_dinsert_ne _ _ (by decide), lookup_dinsert_self]
  · rw [hred]
    show (dinsert "bcc" _ (dinsert "cc" _ (dinsert "to" _ []))).lookup "bcc" = _
    rw [lookup_dinsert_self]

/-- Witness for C8: one recipient of each type. -/
theorem set_recipients_accumulation_witness :
    ([(⟨"", "a@x.com"⟩ : EmailAddress)] ≠ []) ∧
    ((((init_payload.set_recipients "to" [⟨"", "a@x.com"⟩]).set_recipients "cc"
        [⟨"", "b@x.com"⟩]).set_recipients "bcc" [⟨"", "c@x.com"⟩]).all_recipients
      = [⟨"", "a@x.com"⟩] ++ [⟨"", "b@x.com"⟩] ++ [⟨"", "c@x.com"⟩]
    ∧ (((((init_payload.set_recipients "to" [⟨"", "a@x.com"⟩]).set_recipients "cc"
        [⟨"", "b@x.com"⟩]).set_recipients "bcc" [⟨"", "c@x.com"⟩]).all_recipients :
          Multiset EmailAddress)
      = Multiset.ofList
          (([(⟨"", "a@x.com"⟩ : EmailAddress)] ++ [⟨"", "b@x.com"⟩] ++ [⟨"", "c@x.com"⟩])))
    ∧ (((init_payload.set_recipients "to" [⟨"", "a@x.com"⟩]).set_recipients "cc"
        [⟨"", "b@x.com"⟩]).set_recipients "bcc" [⟨"", "c@x.com"⟩]).data.lookup "to"
      = some (.list ([(⟨"", "a@x.com"⟩ : EmailAddress)].map EmailAddress.pyStr))
    ∧ (((init_payload.set_recipients "to" [⟨"", "a@x.com"⟩]).set_recipients "cc"
        [⟨"", "b@x.com"⟩]).set_recipients "bcc" [⟨"", "c@x.com"⟩]).data.lookup "cc"
      = some (.list ([(⟨"", "b@x.com"⟩ : EmailAddress)].map EmailAddress.pyStr))
    ∧ (((init_payload.set_recipients "to" [⟨"", "a@x.com"⟩]).set_recipients "cc"
        [⟨"", "b@x.com"⟩]).set_recipients "bcc" [⟨"", "c@x.com"⟩]).data.lookup "bcc"
      = some (.list ([(⟨"", "c@x.com"⟩ : EmailAddress)].map EmailAddress.pyStr))) :=
  ⟨by decide,
    set_recipients_accumulation [⟨"", "a@x.com"⟩] [⟨"", "b@x.com"⟩] [⟨"", "c@x.com"⟩]
      (by decide) (by decide) (by decide)⟩

/-- Claim C7: for a metadata mapping whose values are all
JSON-serializable, `set_metadata` succeeds and stores each value under
the field `v:<key>` — a plain string raw (unquoted), any other value as
its literal JSON text; a mapping containing a non-serializable value
makes `set_metadata` raise the classified serialization error (during
payload construction, before any network call). -/
theorem set_metadata_storage (p : MailgunPayload) (m : List (String × PyValue))
    (hnd : (m.map Prod.fst).Nodup) :
    ((∀ kv ∈ m, kv.2.serializable = true) →
      ∃ p2, MailgunPayload.set_metadata p m = .ok p2
        ∧ ∀ k v, m.lookup k = some v →
            p2.data.lookup ("v:" ++ k) = some (.str (specMetadataText v)))
    ∧ ((∃ kv ∈ m, kv.2.serializable = false) →
        MailgunPayload.set_metadata p m = .error .serializationError) := by
  constructor
  · intro hall
    refine ⟨_, set_metadata_ok p m hall, ?_⟩
    intro k v hv
    have hmapnd : ((m.map (fun kv => ("v:" ++ kv.1, Value.str (specMetadataText kv.2)))).map
        Prod.fst).Nodup := by
      rw [List.map_map]
      have hcomp : (Prod.fst ∘ fun kv : String × PyValue =>
          ("v:" ++ kv.1, Value.str (specMetadataText kv.2)))
          = (fun k => "v:" ++ k) ∘ Prod.fst := rfl
      rw [hcomp, ← List.map_map]
      exact hnd.map (fun x y hxy => str_append_left_cancel hxy)
    exact lookup_updateData_of_mem hmapnd (lookup_map_vkey m k v hv)
  · exact set_metadata_error p m

/-- Witness for C7: the spec's examples — string `hello` stored raw,
`42` and `{"a":1}` stored as their literal JSON text, and a
non-serializable value raising the serialization error. -/
theorem set_metadata_storage_witness :
    (∃ p2, MailgunPayload.set_metadata init_payload
        [("string", .json (.str "hello")), ("number", .json (.num 42)),
          ("mapping", .json (.obj [("a", .num 1)]))] = .ok p2
      ∧ ∀ k v, ([("string", PyValue.json (.str "hello")),
            ("number", PyValue.json (.num 42)),
            ("mapping", PyValue.json (.obj [("a", .num 1)]))].lookup k) = some v →
          p2.data.lookup ("v:" ++ k) = some (.str (specMetadataText v)))
    ∧ specMetadataText (.json (.str "hello")) = "hello"
    ∧ specMetadataText (.json (.num 42)) = "42"
    ∧ specMetadataText (.json (.obj [("a", .num 1)])) = "\x7b\"a\":1\x7d"
    ∧ MailgunPayload.set_metadata init_payload
        [("when", .notSerializable "datetime object")] = .error .serializationError := by
  refine ⟨?_, by decide, by decide, by decide, ?_⟩
  · exact (set_metadata_storage init_payload
      [("string", .json (.str "hello")), ("number", .json (.num 42)),
        ("mapping", .json (.obj [("a", .num 1)]))] (by decide)).1 (by decide)
  · exact (set_metadata_storage init_payload
      [("when", .notSerializable "datetime object")] (by decide)).2
      ⟨("when", .notSerializable "datetime object"), List.mem_cons_self _ _, rfl⟩
